import Mathlib

/-!
Shallow embedding of the SENTINEL EVM bytecode decompiler core
(src/decompiler/src/main.rs): the opcode table, the linear disassembler,
the basic-block / CFG builder and the security analyzer, together with
theorems settling the specification claims about them.

Bytes of the input stream are modelled as natural numbers (the byte values
0..255); machine integers of the source (usize, u32) are modelled as Nat,
with explicit reduction modulo 2^32 exactly where the source performs
u32 arithmetic or an `as u32` cast.  Fallible or panicking source paths
are modelled with Option: a Rust index-out-of-bounds panic becomes none.
-/

/-- The opcode identity, one constructor per variant of the Rust
`enum Opcode`.  The Rust source declares both INVALID and UNKNOWN with
the numeric value 0xFE; here they are distinct constructors whose
`toByte` agree on 0xFE. -/
inductive Opcode where
  | STOP | ADD | MUL | SUB | DIV | SDIV | MOD | SMOD | ADDMOD | MULMOD
  | EXP | SIGNEXTEND
  | LT | GT | SLT | SGT | EQ | ISZERO | AND | OR | XOR | NOT | BYTE
  | SHL | SHR | SAR
  | SHA3
  | ADDRESS | BALANCE | ORIGIN | CALLER | CALLVALUE | CALLDATALOAD
  | CALLDATASIZE | CALLDATACOPY | CODESIZE | CODECOPY | GASPRICE
  | EXTCODESIZE | EXTCODECOPY | RETURNDATASIZE | RETURNDATACOPY | EXTCODEHASH
  | BLOCKHASH | COINBASE | TIMESTAMP | NUMBER | DIFFICULTY | GASLIMIT
  | CHAINID | SELFBALANCE | BASEFEE
  | POP | MLOAD | MSTORE | MSTORE8 | SLOAD | SSTORE | JUMP | JUMPI
  | PC | MSIZE | GAS | JUMPDEST
  | PUSH1 | PUSH2 | PUSH3 | PUSH4 | PUSH32
  | DUP1 | DUP16
  | SWAP1 | SWAP16
  | LOG0 | LOG4
  | CREATE | CALL | CALLCODE | RETURN | DELEGATECALL | CREATE2
  | STATICCALL | REVERT | INVALID | SELFDESTRUCT
  | UNKNOWN
  deriving DecidableEq, Repr

namespace Opcode

/-- The numeric value of each variant, as declared by the Rust
`#[repr(u8)]` discriminants (what `*self as u8` evaluates to). -/
def toByte : Opcode → Nat
  | .STOP => 0x00 | .ADD => 0x01 | .MUL => 0x02 | .SUB => 0x03 | .DIV => 0x04
  | .SDIV => 0x05 | .MOD => 0x06 | .SMOD => 0x07 | .ADDMOD => 0x08
  | .MULMOD => 0x09 | .EXP => 0x0A | .SIGNEXTEND => 0x0B
  | .LT => 0x10 | .GT => 0x11 | .SLT => 0x12 | .SGT => 0x13 | .EQ => 0x14
  | .ISZERO => 0x15 | .AND => 0x16 | .OR => 0x17 | .XOR => 0x18 | .NOT => 0x19
  | .BYTE => 0x1A | .SHL => 0x1B | .SHR => 0x1C | .SAR => 0x1D
  | .SHA3 => 0x20
  | .ADDRESS => 0x30 | .BALANCE => 0x31 | .ORIGIN => 0x32 | .CALLER => 0x33
  | .CALLVALUE => 0x34 | .CALLDATALOAD => 0x35 | .CALLDATASIZE => 0x36
  | .CALLDATACOPY => 0x37 | .CODESIZE => 0x38 | .CODECOPY => 0x39
  | .GASPRICE => 0x3A | .EXTCODESIZE => 0x3B | .EXTCODECOPY => 0x3C
  | .RETURNDATASIZE => 0x3D | .RETURNDATACOPY => 0x3E | .EXTCODEHASH => 0x3F
  | .BLOCKHASH => 0x40 | .COINBASE => 0x41 | .TIMESTAMP => 0x42
  | .NUMBER => 0x43 | .DIFFICULTY => 0x44 | .GASLIMIT => 0x45
  | .CHAINID => 0x46 | .SELFBALANCE => 0x47 | .BASEFEE => 0x48
  | .POP => 0x50 | .MLOAD => 0x51 | .MSTORE => 0x52 | .MSTORE8 => 0x53
  | .SLOAD => 0x54 | .SSTORE => 0x55 | .JUMP => 0x56 | .JUMPI => 0x57
  | .PC => 0x58 | .MSIZE => 0x59 | .GAS => 0x5A | .JUMPDEST => 0x5B
  | .PUSH1 => 0x60 | .PUSH2 => 0x61 | .PUSH3 => 0x62 | .PUSH4 => 0x63
  | .PUSH32 => 0x7F
  | .DUP1 => 0x80 | .DUP16 => 0x8F
  | .SWAP1 => 0x90 | .SWAP16 => 0x9F
  | .LOG0 => 0xA0 | .LOG4 => 0xA4
  | .CREATE => 0xF0 | .CALL => 0xF1 | .CALLCODE => 0xF2 | .RETURN => 0xF3
  | .DELEGATECALL => 0xF4 | .CREATE2 => 0xF5 | .STATICCALL => 0xFA
  | .REVERT => 0xFD | .INVALID => 0xFE | .SELFDESTRUCT => 0xFF
  | .UNKNOWN => 0xFE

/-- The Debug formatting of a variant (Rust `format!("{:?}", op)`):
the variant's name. -/
def debugName : Opcode → String
  | .STOP => "STOP" | .ADD => "ADD" | .MUL => "MUL" | .SUB => "SUB"
  | .DIV => "DIV" | .SDIV => "SDIV" | .MOD => "MOD" | .SMOD => "SMOD"
  | .ADDMOD => "ADDMOD" | .MULMOD => "MULMOD" | .EXP => "EXP"
  | .SIGNEXTEND => "SIGNEXTEND"
  | .LT => "LT" | .GT => "GT" | .SLT => "SLT" | .SGT => "SGT" | .EQ => "EQ"
  | .ISZERO => "ISZERO" | .AND => "AND" | .OR => "OR" | .XOR => "XOR"
  | .NOT => "NOT" | .BYTE => "BYTE" | .SHL => "SHL" | .SHR => "SHR"
  | .SAR => "SAR" | .SHA3 => "SHA3"
  | .ADDRESS => "ADDRESS" | .BALANCE => "BALANCE" | .ORIGIN => "ORIGIN"
  | .CALLER => "CALLER" | .CALLVALUE => "CALLVALUE"
  | .CALLDATALOAD => "CALLDATALOAD" | .CALLDATASIZE => "CALLDATASIZE"
  | .CALLDATACOPY => "CALLDATACOPY" | .CODESIZE => "CODESIZE"
  | .CODECOPY => "CODECOPY" | .GASPRICE => "GASPRICE"
  | .EXTCODESIZE => "EXTCODESIZE" | .EXTCODECOPY => "EXTCODECOPY"
  | .RETURNDATASIZE => "RETURNDATASIZE" | .RETURNDATACOPY => "RETURNDATACOPY"
  | .EXTCODEHASH => "EXTCODEHASH"
  | .BLOCKHASH => "BLOCKHASH" | .COINBASE => "COINBASE"
  | .TIMESTAMP => "TIMESTAMP" | .NUMBER => "NUMBER"
  | .DIFFICULTY => "DIFFICULTY" | .GASLIMIT => "GASLIMIT"
  | .CHAINID => "CHAINID" | .SELFBALANCE => "SELFBALANCE"
  | .BASEFEE => "BASEFEE"
  | .POP => "POP" | .MLOAD => "MLOAD" | .MSTORE => "MSTORE"
  | .MSTORE8 => "MSTORE8" | .SLOAD => "SLOAD" | .SSTORE => "SSTORE"
  | .JUMP => "JUMP" | .JUMPI => "JUMPI" | .PC => "PC" | .MSIZE => "MSIZE"
  | .GAS => "GAS" | .JUMPDEST => "JUMPDEST"
  | .PUSH1 => "PUSH1" | .PUSH2 => "PUSH2" | .PUSH3 => "PUSH3"
  | .PUSH4 => "PUSH4" | .PUSH32 => "PUSH32"
  | .DUP1 => "DUP1" | .DUP16 => "DUP16"
  | .SWAP1 => "SWAP1" | .SWAP16 => "SWAP16"
  | .LOG0 => "LOG0" | .LOG4 => "LOG4"
  | .CREATE => "CREATE" | .CALL => "CALL" | .CALLCODE => "CALLCODE"
  | .RETURN => "RETURN" | .DELEGATECALL => "DELEGATECALL"
  | .CREATE2 => "CREATE2" | .STATICCALL => "STATICCALL"
  | .REVERT => "REVERT" | .INVALID => "INVALID"
  | .SELFDESTRUCT => "SELFDESTRUCT" | .UNKNOWN => "UNKNOWN"

/-- Argument width of an opcode (Rust `Opcode::arg_size`): computed from
the variant's own numeric value, not from the raw byte that produced it. -/
def arg_size (op : Opcode) : Nat :=
  let b := op.toByte
  if 0x60 ≤ b ∧ b ≤ 0x7F then b - 0x5F else 0

/-- Rust `Opcode::is_dangerous`. -/
def is_dangerous : Opcode → Bool
  | .CALL | .CALLCODE | .DELEGATECALL | .SELFDESTRUCT
  | .CREATE | .CREATE2 | .SSTORE => true
  | _ => false

/-- Rust `Opcode::is_control_flow`. -/
def is_control_flow : Opcode → Bool
  | .JUMP | .JUMPI | .STOP | .RETURN | .REVERT | .SELFDESTRUCT => true
  | _ => false

end Opcode

/-- Byte-to-opcode translation (Rust `impl From<u8> for Opcode`),
arm for arm.  Bytes not listed fall through to UNKNOWN. -/
def opcodeOf (byte : Nat) : Opcode :=
  if byte = 0x00 then .STOP
  else if byte = 0x01 then .ADD
  else if byte = 0x02 then .MUL
  else if byte = 0x03 then .SUB
  else if byte = 0x04 then .DIV
  else if byte = 0x20 then .SHA3
  else if byte = 0x31 then .BALANCE
  else if byte = 0x32 then .ORIGIN
  else if byte = 0x33 then .CALLER
  else if byte = 0x34 then .CALLVALUE
  else if byte = 0x35 then .CALLDATALOAD
  else if byte = 0x54 then .SLOAD
  else if byte = 0x55 then .SSTORE
  else if byte = 0x56 then .JUMP
  else if byte = 0x57 then .JUMPI
  else if byte = 0x5B then .JUMPDEST
  else if 0x60 ≤ byte ∧ byte ≤ 0x7F then .PUSH1
  else if 0x80 ≤ byte ∧ byte ≤ 0x8F then .DUP1
  else if 0x90 ≤ byte ∧ byte ≤ 0x9F then .SWAP1
  else if byte = 0xF0 then .CREATE
  else if byte = 0xF1 then .CALL
  else if byte = 0xF2 then .CALLCODE
  else if byte = 0xF3 then .RETURN
  else if byte = 0xF4 then .DELEGATECALL
  else if byte = 0xF5 then .CREATE2
  else if byte = 0xFA then .STATICCALL
  else if byte = 0xFD then .REVERT
  else if byte = 0xFF then .SELFDESTRUCT
  else .UNKNOWN

/-- One decoded instruction (Rust `struct Instruction`). -/
structure Instruction where
  offset : Nat
  opcode : Opcode
  raw_byte : Nat
  argument : Option (List Nat)
  deriving DecidableEq, Repr

namespace Instruction

/-- Rust `Instruction::new`: the opcode is derived from the raw byte. -/
def new (offset : Nat) (raw_byte : Nat) (argument : Option (List Nat)) :
    Instruction :=
  { offset := offset, opcode := opcodeOf raw_byte, raw_byte := raw_byte,
    argument := argument }

/-- Rust `Instruction::arg_as_u32`: the argument bytes (at most 4 of
them), front-padded with zero bytes to 4 and read big-endian. -/
def arg_as_u32 (ins : Instruction) : Option Nat :=
  ins.argument.bind fun bytes =>
    if bytes.length ≤ 4 then
      some (bytes.foldl (fun acc b => acc * 256 + b) 0)
    else none

/-- Lowercase hexadecimal rendering of a value below 2^32 on exactly
eight digits (Rust `format!("{:08x}", v)`). -/
def hex8 (v : Nat) : String :=
  ⟨(List.range 8).map fun k => Nat.digitChar (v / 16 ^ (7 - k) % 16)⟩

/-- Rust `Instruction::arg_as_selector`. -/
def arg_as_selector (ins : Instruction) : Option String :=
  ins.arg_as_u32.map fun v => "0x" ++ hex8 v

end Instruction

/-- Rust `enum DecompilerError`. -/
inductive DecompilerError where
  | InvalidBytecode (msg : String)
  | InvalidOpcode (position : Nat) (opcode : Nat)
  | RpcError (msg : String)
  | ParseError (msg : String)
  deriving DecidableEq, Repr

/-- The disassembly loop of `Disassembler::disassemble`.  `fuel` bounds
the number of iterations so that the recursion is structural; the entry
point passes the byte count, which the cursor (advancing by at least one
byte per iteration) can never exceed.  `i` is the current byte offset and
the list holds the bytes from offset `i` on.  Branches mirror the source:
a zero-width opcode advances by one; a PUSH whose full immediate is
present takes it; a PUSH at the end of the stream keeps the remaining
bytes (or nothing when none remain) and the loop ends. -/
def disasmGo : Nat → Nat → List Nat → List Instruction
  | _, _, [] => []
  | 0, _, _ :: _ => []
  | fuel + 1, i, b :: rest =>
    let opcode := opcodeOf b
    let arg_size := opcode.arg_size
    if arg_size = 0 then
      Instruction.new i b none :: disasmGo fuel (i + 1) rest
    else if arg_size ≤ rest.length then
      Instruction.new i b (some (rest.take arg_size)) ::
        disasmGo fuel (i + 1 + arg_size) (rest.drop arg_size)
    else
      [Instruction.new i b (if 0 < rest.length then some rest else none)]

/-- The instruction sequence produced by `Disassembler::disassemble`. -/
def disassembleList (bytecode : List Nat) : List Instruction :=
  disasmGo bytecode.length 0 bytecode

/-- Rust `Disassembler::disassemble`: always returns Ok. -/
def disassemble (bytecode : List Nat) :
    Except DecompilerError (List Instruction) :=
  Except.ok (disassembleList bytecode)

/-- One basic block (Rust `struct BasicBlock`). -/
structure BasicBlock where
  start_offset : Nat
  end_offset : Nat
  instructions : List Instruction
  is_entry : Bool
  is_revert : Bool
  is_return : Bool
  deriving DecidableEq, Repr

/-- The opcodes after which `ControlFlowGraph::build` starts a new block
(the JUMP | JUMPI arm and the STOP | RETURN | REVERT | SELFDESTRUCT arm
insert the next index as a leader). -/
def isBlockEnd : Opcode → Bool
  | .JUMP | .JUMPI | .STOP | .RETURN | .REVERT | .SELFDESTRUCT => true
  | _ => false

/-- Membership of a positive sequence index in the leader set of
`ControlFlowGraph::build`: the index of a JUMPDEST, or the index right
after a block-ending opcode. -/
def isLeaderAt (instrs : List Instruction) (k : Nat) : Bool :=
  (match instrs.get? k with
   | some ins => ins.opcode == .JUMPDEST
   | none => false)
  ||
  (decide (1 ≤ k) &&
   match instrs.get? (k - 1) with
   | some ins => isBlockEnd ins.opcode
   | none => false)

/-- The sorted leader list of `ControlFlowGraph::build`: the source
collects leaders into a HashSet seeded with 0 and sorts it ascending.
Every inserted index other than the seed is positive and below the
instruction count (JUMPDEST indices are; successor indices are inserted
only under an explicit bound check), so the sorted set is 0 followed by
the positive in-range indices satisfying `isLeaderAt`, in order. -/
def sortedLeaders (instrs : List Instruction) : List Nat :=
  0 :: (List.range instrs.length).filter
    fun k => decide (0 < k) && isLeaderAt instrs k

/-- The block-formation loop of `ControlFlowGraph::build`: each leader
starts a block running to the next leader (or to the end of the
sequence).  The source reads `instructions[start]` for the block's
start offset: on an empty instruction sequence that index is out of
bounds and the program panics, modelled as none. -/
def mkBlocks (instrs : List Instruction) : List Nat → Option (List BasicBlock)
  | [] => some []
  | start :: restLeaders =>
    let stop := match restLeaders with
      | next :: _ => next
      | [] => instrs.length
    match instrs.get? start with
    | none => none
    | some first =>
      let block_instructions := (instrs.drop start).take (stop - start)
      let last_opcode := block_instructions.getLast?.map (·.opcode)
      let block : BasicBlock :=
        { start_offset := first.offset
          end_offset := match block_instructions.getLast? with
            | some lastIns => lastIns.offset
            | none => 0
          instructions := block_instructions
          is_entry := start == 0
          is_revert := last_opcode == some .REVERT
          is_return := last_opcode == some .RETURN
                       || last_opcode == some .STOP }
      (mkBlocks instrs restLeaders).map fun blocks => block :: blocks

/-- Rust `ControlFlowGraph::build`, reduced to its node list: the blocks
in leader order (the graph has no edges; the offset index and the entry
handle add no information used by any claim).  none models the panic on
an empty instruction sequence. -/
def buildBlocks (instrs : List Instruction) : Option (List BasicBlock) :=
  mkBlocks instrs (sortedLeaders instrs)

/-- Rust `SecurityAnalysis`. -/
structure SecurityAnalysis where
  function_selectors : List String
  dangerous_opcodes : List (Nat × String × String)
  external_calls : Nat
  storage_writes : Nat
  has_selfdestruct : Bool
  has_delegatecall : Bool
  has_create : Bool
  complexity_score : Nat
  risk_indicators : List (String × String × String)
  deriving DecidableEq, Repr

/-- Offset of a dangerous-opcode finding
(Rust `DangerousOpcode { offset, opcode, risk }`). -/
def findingOffset (d : Nat × String × String) : Nat := d.1

/-- The selector scan of `SecurityAnalyzer::analyze`: over each adjacent
pair of instructions, a raw PUSH4 byte followed by a raw EQ byte
contributes `arg_as_selector` of the first. -/
def selectorPass : List Instruction → List String
  | x :: y :: rest =>
    (if x.raw_byte = 0x63 ∧ y.raw_byte = 0x14 then
       match x.arg_as_selector with
       | some s => [s]
       | none => []
     else []) ++ selectorPass (y :: rest)
  | _ => []

/-- The mutable accumulators of the per-instruction loop of
`SecurityAnalyzer::analyze`. -/
structure AnalyzerState where
  dangerous : List (Nat × String × String)
  external_calls : Nat
  storage_writes : Nat
  has_selfdestruct : Bool
  has_delegatecall : Bool
  has_create : Bool
  risks : List (String × String × String)
  deriving DecidableEq, Repr

/-- The initial accumulator values of `SecurityAnalyzer::analyze`. -/
def analyzerInit : AnalyzerState :=
  { dangerous := [], external_calls := 0, storage_writes := 0,
    has_selfdestruct := false, has_delegatecall := false,
    has_create := false, risks := [] }

/-- The (name, severity, description) pushed for each SELFDESTRUCT. -/
def selfdestructIndicator : String × String × String :=
  ("Self-destruct capability", "critical",
   "Contract can be destroyed, all funds sent to owner")

/-- One iteration of the per-instruction match of
`SecurityAnalyzer::analyze`, arm for arm. -/
def analyzeStep (s : AnalyzerState) (ins : Instruction) : AnalyzerState :=
  match ins.opcode with
  | .CALL | .CALLCODE | .STATICCALL =>
    { s with external_calls := s.external_calls + 1,
             dangerous := s.dangerous ++
               [(ins.offset, ins.opcode.debugName,
                 "External call - potential reentrancy")] }
  | .DELEGATECALL =>
    { s with has_delegatecall := true,
             external_calls := s.external_calls + 1,
             dangerous := s.dangerous ++
               [(ins.offset, "DELEGATECALL",
                 "Delegatecall - storage manipulation risk")] }
  | .SSTORE =>
    { s with storage_writes := s.storage_writes + 1 }
  | .SELFDESTRUCT =>
    { s with has_selfdestruct := true,
             dangerous := s.dangerous ++
               [(ins.offset, "SELFDESTRUCT", "Contract can be destroyed")],
             risks := s.risks ++ [selfdestructIndicator] }
  | .CREATE | .CREATE2 =>
    { s with has_create := true,
             dangerous := s.dangerous ++
               [(ins.offset, ins.opcode.debugName, "Creates new contract")] }
  | _ => s

/-- Truncating usize-to-u32 cast (Rust `as u32`). -/
def toU32 (n : Nat) : Nat := n % 4294967296

/-- Wrapping u32 addition (Rust `+` on u32 with overflow checks off). -/
def u32add (a b : Nat) : Nat := (a + b) % 4294967296

/-- Wrapping u32 multiplication (Rust `*` on u32 with overflow checks
off). -/
def u32mul (a b : Nat) : Nat := (a * b) % 4294967296

/-- Rust `SecurityAnalyzer::analyze`: the selector scan, the
per-instruction accumulation, the CFG build (whose panic on an empty
sequence propagates as none), the complexity score and the post-pass
risk indicators. -/
def analyze (instructions : List Instruction) : Option SecurityAnalysis :=
  let selectors := selectorPass instructions
  let st := instructions.foldl analyzeStep analyzerInit
  match buildBlocks instructions with
  | none => none
  | some blocks =>
    let complexity :=
      u32add (u32add (u32mul (toU32 blocks.length) 10)
                     (u32mul (toU32 st.external_calls) 20))
             (u32mul (toU32 st.storage_writes) 5)
    let risks := st.risks ++
      (if st.has_delegatecall then
        [("Delegatecall usage", "high",
          "Contract uses delegatecall - verify upgrade mechanism")]
       else []) ++
      (if 5 < st.external_calls then
        [("Multiple external calls", "medium",
          toString st.external_calls ++ " external calls - check for reentrancy")]
       else [])
    some
      { function_selectors := selectors
        dangerous_opcodes := st.dangerous
        external_calls := st.external_calls
        storage_writes := st.storage_writes
        has_selfdestruct := st.has_selfdestruct
        has_delegatecall := st.has_delegatecall
        has_create := st.has_create
        complexity_score := complexity
        risk_indicators := risks }

/-- The external-call opcodes of the specification (CALL, CALLCODE,
DELEGATECALL, STATICCALL). -/
def isExternalCallOp : Opcode → Bool
  | .CALL | .CALLCODE | .DELEGATECALL | .STATICCALL => true
  | _ => false

/-- The contract-creation opcodes (CREATE, CREATE2). -/
def isCreateOp : Opcode → Bool
  | .CREATE | .CREATE2 => true
  | _ => false

/-- Recognizer for SSTORE. -/
def isSstoreOp : Opcode → Bool
  | .SSTORE => true
  | _ => false

/-- Recognizer for SELFDESTRUCT. -/
def isSelfdestructOp : Opcode → Bool
  | .SELFDESTRUCT => true
  | _ => false

/-- Recognizer for DELEGATECALL. -/
def isDelegatecallOp : Opcode → Bool
  | .DELEGATECALL => true
  | _ => false

/-- The opcodes for which the per-instruction loop of
`SecurityAnalyzer::analyze` pushes a dangerous-opcode finding. -/
def isFindingOp : Opcode → Bool
  | .CALL | .CALLCODE | .STATICCALL | .DELEGATECALL
  | .SELFDESTRUCT | .CREATE | .CREATE2 => true
  | _ => false

/-- The dangerous-opcode findings one instruction contributes in the
per-instruction loop (zero or one). -/
def findingFor (ins : Instruction) : List (Nat × String × String) :=
  match ins.opcode with
  | .CALL | .CALLCODE | .STATICCALL =>
    [(ins.offset, ins.opcode.debugName, "External call - potential reentrancy")]
  | .DELEGATECALL =>
    [(ins.offset, "DELEGATECALL", "Delegatecall - storage manipulation risk")]
  | .SELFDESTRUCT =>
    [(ins.offset, "SELFDESTRUCT", "Contract can be destroyed")]
  | .CREATE | .CREATE2 =>
    [(ins.offset, ins.opcode.debugName, "Creates new contract")]
  | _ => []

/-- The risk indicators one instruction contributes in the
per-instruction loop (only SELFDESTRUCT contributes one). -/
def riskFor (ins : Instruction) : List (String × String × String) :=
  match ins.opcode with
  | .SELFDESTRUCT => [selfdestructIndicator]
  | _ => []

/-- Immediate width as the specification defines it, from the raw byte:
b minus 0x5F for the PUSH family 0x60..0x7F, zero otherwise. -/
def rawImmediateWidth (b : Nat) : Nat :=
  if 0x60 ≤ b ∧ b ≤ 0x7F then b - 0x5F else 0

/-- Saturating 32-bit addition, as the specification words the
complexity arithmetic. -/
def satAdd (a b : Nat) : Nat := min (a + b) 4294967295

/-- Saturating 32-bit multiplication, as the specification words the
complexity arithmetic. -/
def satMul (a b : Nat) : Nat := min (a * b) 4294967295

/-- Modelled from the spec: the complexity score 10·B + 20·E + 5·W
computed with saturating non-negative 32-bit integer arithmetic, the
formula claim C8 states (the source instead uses plain wrapping u32
arithmetic; this definition exists to be compared with it). -/
def spec_saturating_complexity (B E W : Nat) : Nat :=
  satAdd (satAdd (satMul 10 B) (satMul 20 E)) (satMul 5 W)

/-- Recognizer for the critical self-destruct risk indicator. -/
def isSelfdestructIndicator (ri : String × String × String) : Bool :=
  ri.1 == "Self-destruct capability" && ri.2.1 == "critical"

/-- Recognizer for the high delegatecall risk indicator. -/
def isDelegatecallIndicator (ri : String × String × String) : Bool :=
  ri.1 == "Delegatecall usage" && ri.2.1 == "high"

/-- Every instruction the disassembler emits from offset i over the tail
list has its offset in the half-open span starting at i of the tail's
length. -/
theorem disasmGo_mem_offset :
    ∀ (fuel i : Nat) (bytes : List Nat), bytes.length ≤ fuel →
      ∀ ins ∈ disasmGo fuel i bytes,
        i ≤ ins.offset ∧ ins.offset < i + bytes.length := by
  intro fuel
  induction fuel with
  | zero =>
    intro i bytes hfuel ins hmem
    cases bytes with
    | nil => simp [disasmGo] at hmem
    | cons b rest => simp at hfuel
  | succ f ih =>
    intro i bytes hfuel ins hmem
    cases bytes with
    | nil => simp [disasmGo] at hmem
    | cons b rest =>
      have hrest : rest.length ≤ f := by
        simpa using Nat.le_of_succ_le_succ hfuel
      simp only [disasmGo] at hmem
      by_cases h0 : (opcodeOf b).arg_size = 0
      · rw [if_pos h0] at hmem
        rcases List.mem_cons.mp hmem with rfl | hmem2
        · simp [Instruction.new]
        · have := ih (i + 1) rest hrest ins hmem2
          simp only [List.length_cons]
          omega
      · rw [if_neg h0] at hmem
        by_cases h1 : (opcodeOf b).arg_size ≤ rest.length
        · rw [if_pos h1] at hmem
          rcases List.mem_cons.mp hmem with rfl | hmem2
          · simp [Instruction.new]
          · have hlen : (rest.drop (opcodeOf b).arg_size).length ≤ f := by
              simp only [List.length_drop]
              omega
            have hb := ih (i + 1 + (opcodeOf b).arg_size) _ hlen ins hmem2
            simp only [List.length_drop] at hb
            simp only [List.length_cons]
            omega
        · rw [if_neg h1] at hmem
          rcases List.mem_singleton.mp hmem with rfl
          simp [Instruction.new]

/-- The offsets the disassembler emits are strictly increasing. -/
theorem disasmGo_offsets_sorted :
    ∀ (fuel i : Nat) (bytes : List Nat), bytes.length ≤ fuel →
      ((disasmGo fuel i bytes).map Instruction.offset).Pairwise (· < ·) := by
  intro fuel
  induction fuel with
  | zero =>
    intro i bytes hfuel
    cases bytes with
    | nil => simp [disasmGo]
    | cons b rest => simp at hfuel
  | succ f ih =>
    intro i bytes hfuel
    cases bytes with
    | nil => simp [disasmGo]
    | cons b rest =>
      have hrest : rest.length ≤ f := by
        simpa using Nat.le_of_succ_le_succ hfuel
      simp only [disasmGo]
      by_cases h0 : (opcodeOf b).arg_size = 0
      · rw [if_pos h0]
        simp only [List.map_cons, List.pairwise_cons]
        refine ⟨?_, ih (i + 1) rest hrest⟩
        intro o ho
        rcases List.mem_map.mp ho with ⟨ins, hins, rfl⟩
        have := (disasmGo_mem_offset f (i + 1) rest hrest ins hins).1
        simp [Instruction.new]
        omega
      · rw [if_neg h0]
        by_cases h1 : (opcodeOf b).arg_size ≤ rest.length
        · rw [if_pos h1]
          have hlen : (rest.drop (opcodeOf b).arg_size).length ≤ f := by
            simp only [List.length_drop]
            omega
          simp only [List.map_cons, List.pairwise_cons]
          refine ⟨?_, ih (i + 1 + (opcodeOf b).arg_size) _ hlen⟩
          intro o ho
          rcases List.mem_map.mp ho with ⟨ins, hins, rfl⟩
          have := (disasmGo_mem_offset f _ _ hlen ins hins).1
          simp [Instruction.new]
          omega
        · rw [if_neg h1]
          simp

/-- Field-by-field effect of one iteration of the per-instruction loop. -/
theorem analyzeStep_fields (s : AnalyzerState) (ins : Instruction) :
    (analyzeStep s ins).external_calls
      = s.external_calls + (if isExternalCallOp ins.opcode then 1 else 0) ∧
    (analyzeStep s ins).storage_writes
      = s.storage_writes + (if isSstoreOp ins.opcode then 1 else 0) ∧
    (analyzeStep s ins).has_selfdestruct
      = (s.has_selfdestruct || isSelfdestructOp ins.opcode) ∧
    (analyzeStep s ins).has_delegatecall
      = (s.has_delegatecall || isDelegatecallOp ins.opcode) ∧
    (analyzeStep s ins).has_create
      = (s.has_create || isCreateOp ins.opcode) ∧
    (analyzeStep s ins).dangerous = s.dangerous ++ findingFor ins ∧
    (analyzeStep s ins).risks = s.risks ++ riskFor ins := by
  obtain ⟨off, op, raw, arg⟩ := ins
  cases op <;>
    simp [analyzeStep, isExternalCallOp, isSstoreOp, isSelfdestructOp,
          isDelegatecallOp, isCreateOp, isFindingOp, findingFor, riskFor]

/-- Accumulated effect of the whole per-instruction loop, for every
starting accumulator. -/
theorem foldl_analyzeStep (instrs : List Instruction) :
    ∀ s : AnalyzerState,
      (instrs.foldl analyzeStep s).external_calls
        = s.external_calls + instrs.countP (fun i => isExternalCallOp i.opcode) ∧
      (instrs.foldl analyzeStep s).storage_writes
        = s.storage_writes + instrs.countP (fun i => isSstoreOp i.opcode) ∧
      (instrs.foldl analyzeStep s).has_selfdestruct
        = (s.has_selfdestruct || instrs.any (fun i => isSelfdestructOp i.opcode)) ∧
      (instrs.foldl analyzeStep s).has_delegatecall
        = (s.has_delegatecall || instrs.any (fun i => isDelegatecallOp i.opcode)) ∧
      (instrs.foldl analyzeStep s).has_create
        = (s.has_create || instrs.any (fun i => isCreateOp i.opcode)) ∧
      (instrs.foldl analyzeStep s).dangerous
        = s.dangerous ++ (instrs.map findingFor).flatten ∧
      (instrs.foldl analyzeStep s).risks
        = s.risks ++ (instrs.map riskFor).flatten := by
  induction instrs with
  | nil => intro s; simp
  | cons a l ih =>
    intro s
    obtain ⟨h1, h2, h3, h4, h5, h6, h7⟩ := ih (analyzeStep s a)
    obtain ⟨g1, g2, g3, g4, g5, g6, g7⟩ := analyzeStep_fields s a
    simp only [List.foldl_cons, List.countP_cons, List.any_cons,
               List.map_cons, List.flatten_cons]
    refine ⟨?_, ?_, ?_, ?_, ?_, ?_, ?_⟩
    · rw [h1, g1]; by_cases hp : isExternalCallOp a.opcode <;> simp [hp]; omega
    · rw [h2, g2]; by_cases hp : isSstoreOp a.opcode <;> simp [hp]; omega
    · rw [h3, g3, Bool.or_assoc]
    · rw [h4, g4, Bool.or_assoc]
    · rw [h5, g5, Bool.or_assoc]
    · rw [h6, g6, List.append_assoc]
    · rw [h7, g7, List.append_assoc]

/-- What a successful `SecurityAnalyzer::analyze` run contains, field by
field, in terms of the instruction sequence. -/
theorem analyze_eq (instrs : List Instruction) (r : SecurityAnalysis)
    (h : analyze instrs = some r) :
    ∃ blocks, buildBlocks instrs = some blocks ∧
      r.function_selectors = selectorPass instrs ∧
      r.dangerous_opcodes = (instrs.map findingFor).flatten ∧
      r.external_calls = instrs.countP (fun i => isExternalCallOp i.opcode) ∧
      r.storage_writes = instrs.countP (fun i => isSstoreOp i.opcode) ∧
      r.has_selfdestruct = instrs.any (fun i => isSelfdestructOp i.opcode) ∧
      r.has_delegatecall = instrs.any (fun i => isDelegatecallOp i.opcode) ∧
      r.has_create = instrs.any (fun i => isCreateOp i.opcode) ∧
      r.complexity_score =
        u32add (u32add (u32mul (toU32 blocks.length) 10)
          (u32mul (toU32 (instrs.countP (fun i => isExternalCallOp i.opcode))) 20))
          (u32mul (toU32 (instrs.countP (fun i => isSstoreOp i.opcode))) 5) ∧
      r.risk_indicators =
        (instrs.map riskFor).flatten ++
        (if instrs.any (fun i => isDelegatecallOp i.opcode) then
          [("Delegatecall usage", "high",
            "Contract uses delegatecall - verify upgrade mechanism")]
         else []) ++
        (if 5 < instrs.countP (fun i => isExternalCallOp i.opcode) then
          [("Multiple external calls", "medium",
            toString (instrs.countP (fun i => isExternalCallOp i.opcode)) ++
              " external calls - check for reentrancy")]
         else []) := by
  obtain ⟨f1, f2, f3, f4, f5, f6, f7⟩ := foldl_analyzeStep instrs analyzerInit
  rw [show analyzerInit.external_calls = 0 from rfl, Nat.zero_add] at f1
  rw [show analyzerInit.storage_writes = 0 from rfl, Nat.zero_add] at f2
  rw [show analyzerInit.has_selfdestruct = false from rfl, Bool.false_or] at f3
  rw [show analyzerInit.has_delegatecall = false from rfl, Bool.false_or] at f4
  rw [show analyzerInit.has_create = false from rfl, Bool.false_or] at f5
  rw [show analyzerInit.dangerous = [] from rfl, List.nil_append] at f6
  rw [show analyzerInit.risks = [] from rfl, List.nil_append] at f7
  simp only [analyze] at h
  split at h
  · exact absurd h (by simp)
  · rename_i blocks hb
    refine ⟨blocks, hb, ?_⟩
    obtain rfl := Option.some.inj h
    refine ⟨rfl, f6, f1, f2, f3, f4, f5, ?_, ?_⟩
    · rw [f1, f2]
    · rw [f7, f4, f1]

/-- Offsets carried by the findings one instruction contributes. -/
theorem findingFor_offsets (ins : Instruction) :
    (findingFor ins).map findingOffset
      = if isFindingOp ins.opcode then [ins.offset] else [] := by
  obtain ⟨off, op, raw, arg⟩ := ins
  cases op <;> simp [findingFor, isFindingOp, findingOffset]

/-- The dangerous-opcode findings carry exactly the offsets of the
finding-producing instructions, in sequence order. -/
theorem flatten_findingFor_offsets (instrs : List Instruction) :
    ((instrs.map findingFor).flatten).map findingOffset
      = (instrs.filter (fun i => isFindingOp i.opcode)).map Instruction.offset := by
  induction instrs with
  | nil => simp
  | cons a l ih =>
    simp only [List.map_cons, List.flatten_cons, List.map_append, ih,
               List.filter_cons]
    by_cases hp : isFindingOp a.opcode
    · simp [hp, findingFor_offsets]
    · simp [hp, findingFor_offsets]

/-- The critical indicators one instruction contributes: one per
SELFDESTRUCT. -/
theorem riskFor_count_sd (ins : Instruction) :
    (riskFor ins).countP isSelfdestructIndicator
      = if isSelfdestructOp ins.opcode then 1 else 0 := by
  obtain ⟨off, op, raw, arg⟩ := ins
  cases op <;> simp [riskFor, isSelfdestructOp]
  all_goals decide

/-- The per-instruction loop contributes no delegatecall indicator. -/
theorem riskFor_count_dc (ins : Instruction) :
    (riskFor ins).countP isDelegatecallIndicator = 0 := by
  obtain ⟨off, op, raw, arg⟩ := ins
  cases op <;> simp [riskFor]
  all_goals decide

/-- Count of critical self-destruct indicators accumulated by the loop. -/
theorem flatten_riskFor_count_sd (instrs : List Instruction) :
    ((instrs.map riskFor).flatten).countP isSelfdestructIndicator
      = instrs.countP (fun i => isSelfdestructOp i.opcode) := by
  induction instrs with
  | nil => simp
  | cons a l ih =>
    simp only [List.map_cons, List.flatten_cons, List.countP_append, ih,
               List.countP_cons, riskFor_count_sd]
    by_cases hp : isSelfdestructOp a.opcode
    · simp [hp]; omega
    · simp [hp]

/-- Count of delegatecall indicators accumulated by the loop: none. -/
theorem flatten_riskFor_count_dc (instrs : List Instruction) :
    ((instrs.map riskFor).flatten).countP isDelegatecallIndicator = 0 := by
  induction instrs with
  | nil => simp
  | cons a l ih =>
    simp [List.countP_append, ih, riskFor_count_dc]

/-- When no instruction is a JUMPDEST and none ends a block, the leader
set stays at its seed: the single leader 0. -/
theorem sortedLeaders_eq_single (instrs : List Instruction)
    (h : ∀ ins ∈ instrs, ins.opcode ≠ .JUMPDEST ∧ isBlockEnd ins.opcode = false) :
    sortedLeaders instrs = [0] := by
  have hf : (List.range instrs.length).filter
      (fun k => decide (0 < k) && isLeaderAt instrs k) = [] := by
    apply List.filter_eq_nil_iff.mpr
    intro k _
    have hl : isLeaderAt instrs k = false := by
      unfold isLeaderAt
      cases hq : instrs.get? k with
      | none =>
        cases hq2 : instrs.get? (k - 1) with
        | none => simp
        | some ins2 =>
          have h2 := (h ins2 (List.get?_mem hq2)).2
          simp [h2]
      | some ins =>
        have h1 := (h ins (List.get?_mem hq)).1
        cases hq2 : instrs.get? (k - 1) with
        | none => simp [h1]
        | some ins2 =>
          have h2 := (h ins2 (List.get?_mem hq2)).2
          simp [h1, h2]
    simp [hl]
  unfold sortedLeaders
  rw [hf]

/-- Block formation over a single leader at index 0 yields exactly one
block whenever the instruction sequence is nonempty. -/
theorem mkBlocks_single (instrs : List Instruction) (first : Instruction)
    (h0 : instrs.get? 0 = some first) :
    ∃ blk, mkBlocks instrs [0] = some [blk] := by
  simp only [mkBlocks, h0]
  exact ⟨_, rfl⟩

/-- CFG over a nonempty straight-line instruction sequence: one block. -/
theorem buildBlocks_single (instrs : List Instruction) (first : Instruction)
    (h0 : instrs.get? 0 = some first)
    (h : ∀ ins ∈ instrs, ins.opcode ≠ .JUMPDEST ∧ isBlockEnd ins.opcode = false) :
    ∃ blk, buildBlocks instrs = some [blk] := by
  unfold buildBlocks
  rw [sortedLeaders_eq_single instrs h]
  exact mkBlocks_single instrs first h0

/-- Unfolding of one zero-width disassembly step. -/
theorem disasmGo_cons_zero (fuel i b : Nat) (rest : List Nat)
    (h : (opcodeOf b).arg_size = 0) :
    disasmGo (fuel + 1) i (b :: rest)
      = Instruction.new i b none :: disasmGo fuel (i + 1) rest := by
  simp [disasmGo, h]

/-- Disassembly of a run of CALL bytes: one CALL instruction per byte,
at consecutive offsets. -/
theorem disasmGo_replicate_call :
    ∀ (n fuel i : Nat), n ≤ fuel →
      disasmGo fuel i (List.replicate n 0xF1)
        = (List.range' i n).map fun k =>
            ({ offset := k, opcode := .CALL, raw_byte := 0xF1,
               argument := none } : Instruction) := by
  intro n
  induction n with
  | zero =>
    intro fuel i _
    cases fuel <;> simp [disasmGo]
  | succ m ih =>
    intro fuel i hle
    cases fuel with
    | zero => omega
    | succ f =>
      rw [List.replicate_succ,
          disasmGo_cons_zero f i 0xF1 (List.replicate m 0xF1) rfl,
          ih f (i + 1) (by omega), List.range'_succ]
      simp [Instruction.new, show opcodeOf 0xF1 = .CALL from rfl]

/-- Every instruction in the disassembly of a CALL run is a CALL. -/
theorem mem_replicate_call_opcode (i n : Nat) (ins : Instruction)
    (h : ins ∈ (List.range' i n).map fun k =>
      ({ offset := k, opcode := .CALL, raw_byte := 0xF1,
         argument := none } : Instruction)) : ins.opcode = .CALL := by
  rcases List.mem_map.mp h with ⟨k, _, rfl⟩
  rfl

/-- Head of the mapped range, for a positive length. -/
theorem range'_map_get_zero (f : Nat → Instruction) (i n : Nat) (h : 0 < n) :
    ((List.range' i n).map f).get? 0 = some (f i) := by
  cases n with
  | zero => omega
  | succ m => rw [List.range'_succ]; rfl

/-- External-call count over a CALL run. -/
theorem replicate_call_countP_ext (i n : Nat) :
    (((List.range' i n).map fun k =>
      ({ offset := k, opcode := .CALL, raw_byte := 0xF1,
         argument := none } : Instruction)).countP
        fun ins => isExternalCallOp ins.opcode) = n := by
  rw [List.countP_map,
      show ((fun ins => isExternalCallOp ins.opcode) ∘ fun k =>
        ({ offset := k, opcode := Opcode.CALL, raw_byte := 0xF1,
           argument := none } : Instruction)) = fun _ => true from rfl,
      List.countP_true]
  simp

/-- Storage-write count over a CALL run: zero. -/
theorem replicate_call_countP_sstore (i n : Nat) :
    (((List.range' i n).map fun k =>
      ({ offset := k, opcode := .CALL, raw_byte := 0xF1,
         argument := none } : Instruction)).countP
        fun ins => isSstoreOp ins.opcode) = 0 := by
  rw [List.countP_map,
      show ((fun ins => isSstoreOp ins.opcode) ∘ fun k =>
        ({ offset := k, opcode := Opcode.CALL, raw_byte := 0xF1,
           argument := none } : Instruction)) = fun _ => false from rfl,
      List.countP_false]
  rfl

/-- The complexity score of a successful analysis, via the block count
of the CFG actually built. -/
theorem analyze_complexity_of_buildBlocks (instrs : List Instruction)
    (blocks : List BasicBlock) (hb : buildBlocks instrs = some blocks) :
    (analyze instrs).map SecurityAnalysis.complexity_score
      = some (u32add (u32add (u32mul (toU32 blocks.length) 10)
          (u32mul (toU32 (instrs.countP fun i => isExternalCallOp i.opcode)) 20))
          (u32mul (toU32 (instrs.countP fun i => isSstoreOp i.opcode)) 5)) := by
  obtain ⟨f1, f2, _, _, _, _, _⟩ := foldl_analyzeStep instrs analyzerInit
  rw [show analyzerInit.external_calls = 0 from rfl, Nat.zero_add] at f1
  rw [show analyzerInit.storage_writes = 0 from rfl, Nat.zero_add] at f2
  simp only [analyze, hb, Option.map_some]
  rw [f1, f2]
  rfl

/-- Iff form of the SELFDESTRUCT recognizer. -/
theorem isSelfdestructOp_iff (op : Opcode) :
    isSelfdestructOp op = true ↔ op = .SELFDESTRUCT := by
  cases op <;> simp [isSelfdestructOp]

/-- Iff form of the DELEGATECALL recognizer. -/
theorem isDelegatecallOp_iff (op : Opcode) :
    isDelegatecallOp op = true ↔ op = .DELEGATECALL := by
  cases op <;> simp [isDelegatecallOp]

/-- Iff form of the creation recognizer. -/
theorem isCreateOp_iff (op : Opcode) :
    isCreateOp op = true ↔ op = .CREATE ∨ op = .CREATE2 := by
  cases op <;> simp [isCreateOp]

/-- Claim C1, settled against the code: the immediate width the decoder
actually uses for raw byte 0x63 (PUSH4) is 1, not 0x63 − 0x5F = 4,
because the width is taken from the collapsed opcode tag; on the input
63 12 34 56 78 the disassembler consumes a single immediate byte 0x12
and then decodes 0x34, 0x56, 0x78 as further instructions, although the
claim (and the immediate-width rule it quotes) demands a 4-byte
immediate. -/
theorem claim_C1_push_width_eval :
    (opcodeOf 0x63).arg_size = 1 ∧
    rawImmediateWidth 0x63 = 4 ∧
    (disassembleList [0x63, 0x12, 0x34, 0x56, 0x78]).map
      (fun i => (i.raw_byte, i.argument)) =
      [(0x63, some [0x12]), (0x34, none), (0x56, none), (0x78, none)] := by
  decide

/-- Claim C2, settled against the code: on the empty byte sequence the
disassembler does return zero instructions, but the CFG builder indexes
instruction 0 of the empty sequence and panics (modelled as none), so
the pipeline does not produce the promised empty report. -/
theorem claim_C2_empty_input_eval :
    disassembleList [] = [] ∧ buildBlocks [] = none ∧ analyze [] = none := by
  decide

/-- Claim C3, settled against the code: on input 63 12 34 56 78 14 the
PUSH4 instruction consumes only one immediate byte, so no instruction
with raw byte 0x63 is ever adjacent to one with raw byte 0x14 and the
selector list comes out empty instead of containing 0x12345678. -/
theorem claim_C3_selector_eval :
    (analyze (disassembleList [0x63, 0x12, 0x34, 0x56, 0x78, 0x14])).map
      SecurityAnalysis.function_selectors = some [] ∧
    ([] : List String) ≠ ["0x12345678"] := by
  decide

/-- Claim C4, settled against the code: on the six-byte input
63 00 00 00 00 00 the sum of 1 + raw-byte immediate width over the
emitted instructions is 9, not 6, and the final instruction is an
untruncated STOP, so the truncation exception of the claim does not
apply. -/
theorem claim_C4_length_sum_eval :
    ((disassembleList [0x63, 0x00, 0x00, 0x00, 0x00, 0x00]).map
      (fun i => 1 + rawImmediateWidth i.raw_byte)).sum = 9 ∧
    ([0x63, 0x00, 0x00, 0x00, 0x00, 0x00] : List Nat).length = 6 ∧
    (disassembleList [0x63, 0x00, 0x00, 0x00, 0x00, 0x00]).getLast? =
      some { offset := 5, opcode := .STOP, raw_byte := 0x00,
             argument := none } ∧
    (9 : Nat) ≠ 6 := by
  decide

/-- Claim C5, settled against the code: the byte-to-opcode translation
maps 0x52 to UNKNOWN, not MSTORE, so the third instruction of input
60 60 60 40 52 is classified UNKNOWN and the recognition list of the
claim fails. -/
theorem claim_C5_classify_eval :
    opcodeOf 0x52 = .UNKNOWN ∧
    (disassembleList [0x60, 0x60, 0x60, 0x40, 0x52]).map Instruction.opcode
      = [.PUSH1, .PUSH1, .UNKNOWN] ∧
    Opcode.UNKNOWN ≠ Opcode.MSTORE := by
  decide

/-- Claim C6: for every byte sequence the disassembler terminates and
returns Ok, its instruction offsets are strictly increasing, and every
offset (the final one included) is strictly below the input length. -/
theorem claim_C6_disassembler_total (b : List Nat) :
    disassemble b = Except.ok (disassembleList b) ∧
    ((disassembleList b).map Instruction.offset).Pairwise (· < ·) ∧
    ∀ ins ∈ disassembleList b, ins.offset < b.length := by
  refine ⟨rfl, disasmGo_offsets_sorted b.length 0 b le_rfl, ?_⟩
  intro ins hm
  have := (disasmGo_mem_offset b.length 0 b le_rfl ins hm).2
  simpa using this

/-- Claim C7: in any report the analyzer produces, the external-call
count is the number of CALL, CALLCODE, DELEGATECALL or STATICCALL
instructions, the storage-write count is the number of SSTORE
instructions, and the three capability flags hold exactly when a
SELFDESTRUCT, a DELEGATECALL, or a CREATE/CREATE2 instruction occurs. -/
theorem claim_C7_report_counters (instrs : List Instruction)
    (r : SecurityAnalysis) (h : analyze instrs = some r) :
    r.external_calls = instrs.countP (fun i => isExternalCallOp i.opcode) ∧
    r.storage_writes = instrs.countP (fun i => isSstoreOp i.opcode) ∧
    (r.has_selfdestruct = true ↔
      ∃ ins ∈ instrs, ins.opcode = Opcode.SELFDESTRUCT) ∧
    (r.has_delegatecall = true ↔
      ∃ ins ∈ instrs, ins.opcode = Opcode.DELEGATECALL) ∧
    (r.has_create = true ↔ ∃ ins ∈ instrs,
      ins.opcode = Opcode.CREATE ∨ ins.opcode = Opcode.CREATE2) := by
  obtain ⟨blocks, hb, hsel, hdang, hext, hsto, hsd, hdc, hcr, hcx, hrisk⟩ :=
    analyze_eq instrs r h
  refine ⟨hext, hsto, ?_, ?_, ?_⟩
  · rw [hsd]
    simp only [List.any_eq_true, isSelfdestructOp_iff]
  · rw [hdc]
    simp only [List.any_eq_true, isDelegatecallOp_iff]
  · rw [hcr]
    simp only [List.any_eq_true, isCreateOp_iff]

/-- Witness for claim C7: on the disassembly of F1 FA F1 the report
exists, counts three external calls and sets no delegatecall flag. -/
theorem claim_C7_witness :
    (analyze (disassembleList [0xF1, 0xFA, 0xF1])).map
      (fun r => (r.external_calls, r.has_delegatecall)) = some (3, false) := by
  obtain ⟨r, hr⟩ : ∃ r, analyze (disassembleList [0xF1, 0xFA, 0xF1]) = some r :=
    ⟨_, rfl⟩
  obtain ⟨hext, _, _, hdc, _⟩ := claim_C7_report_counters _ r hr
  have h3 : r.external_calls = 3 := by rw [hext]; decide
  have hne : ¬ ∃ ins ∈ disassembleList [0xF1, 0xFA, 0xF1],
      ins.opcode = Opcode.DELEGATECALL := by decide
  have hdcf : r.has_delegatecall = false := by
    cases hv : r.has_delegatecall
    · rfl
    · exact absurd (hdc.mp hv) hne
  rw [hr]
  simp [h3, hdcf]

/-- Claim C8 as amended: whenever the analyzer produces a report, its
complexity score is 10·B + 20·E + 5·W over the block count of the CFG
actually built, the external-call count and the storage-write count,
computed in wrapping (mod 2^32) unsigned 32-bit arithmetic (the source
casts with `as u32` and uses plain u32 addition and multiplication,
not saturating operations). -/
theorem claim_C8_wrapping_complexity (b : List Nat) (r : SecurityAnalysis)
    (h : analyze (disassembleList b) = some r) :
    ∃ blocks, buildBlocks (disassembleList b) = some blocks ∧
      r.complexity_score =
        u32add (u32add (u32mul (toU32 blocks.length) 10)
          (u32mul (toU32 ((disassembleList b).countP
            fun i => isExternalCallOp i.opcode)) 20))
          (u32mul (toU32 ((disassembleList b).countP
            fun i => isSstoreOp i.opcode)) 5) := by
  obtain ⟨blocks, hb, _, _, hext, hsto, _, _, _, hcx, _⟩ := analyze_eq _ r h
  exact ⟨blocks, hb, hcx⟩

/-- Witness for claim C8: input 00 gives one instruction, one returning
block, and complexity 10. -/
theorem claim_C8_witness :
    (disassembleList [0x00]).length = 1 ∧
    (buildBlocks (disassembleList [0x00])).map
      (List.map BasicBlock.is_return) = some [true] ∧
    (analyze (disassembleList [0x00])).map
      SecurityAnalysis.complexity_score = some 10 := by
  refine ⟨by decide, by decide, ?_⟩
  obtain ⟨r, hr⟩ : ∃ r, analyze (disassembleList [0x00]) = some r := ⟨_, rfl⟩
  obtain ⟨blocks, hb, hcx⟩ := claim_C8_wrapping_complexity [0x00] r hr
  have h1 : (buildBlocks (disassembleList [0x00])).map List.length = some 1 := by
    decide
  rw [hb] at h1
  simp only [Option.map_some'] at h1
  have hlen : blocks.length = 1 := Option.some.inj h1
  rw [hr]
  simp only [Option.map_some']
  rw [hcx, hlen]
  decide

/-- Counterexample for claim C8: over a run of 214748365 CALL bytes the
code computes the complexity with wrapping u32 arithmetic and yields 14
(one block, 214748365 external calls, no storage write: the product
20·E wraps past 2^32 to 4), while the saturating arithmetic the claim
specifies yields 4294967295. -/
theorem claim_C8_counterexample :
    (analyze (disassembleList (List.replicate 214748365 0xF1))).map
      SecurityAnalysis.complexity_score = some 14 ∧
    (buildBlocks (disassembleList (List.replicate 214748365 0xF1))).map
      List.length = some 1 ∧
    ((disassembleList (List.replicate 214748365 0xF1)).countP
      fun i => isExternalCallOp i.opcode) = 214748365 ∧
    ((disassembleList (List.replicate 214748365 0xF1)).countP
      fun i => isSstoreOp i.opcode) = 0 ∧
    spec_saturating_complexity 1 214748365 0 = 4294967295 ∧
    (14 : Nat) ≠ 4294967295 := by
  have hdis : disassembleList (List.replicate 214748365 0xF1)
      = (List.range' 0 214748365).map fun k =>
          ({ offset := k, opcode := .CALL, raw_byte := 0xF1,
             argument := none } : Instruction) := by
    rw [disassembleList, List.length_replicate]
    exact disasmGo_replicate_call 214748365 214748365 0 le_rfl
  obtain ⟨blk, hb⟩ : ∃ blk,
      buildBlocks (disassembleList (List.replicate 214748365 0xF1))
        = some [blk] := by
    rw [hdis]
    refine buildBlocks_single _ _
      (range'_map_get_zero _ 0 214748365 (by norm_num)) ?_
    intro ins hm
    rw [mem_replicate_call_opcode 0 214748365 ins hm]
    exact ⟨by simp, rfl⟩
  have hext : ((disassembleList (List.replicate 214748365 0xF1)).countP
      fun i => isExternalCallOp i.opcode) = 214748365 := by
    rw [hdis]
    exact replicate_call_countP_ext 0 214748365
  have hsto : ((disassembleList (List.replicate 214748365 0xF1)).countP
      fun i => isSstoreOp i.opcode) = 0 := by
    rw [hdis]
    exact replicate_call_countP_sstore 0 214748365
  have hcx := analyze_complexity_of_buildBlocks _ [blk] hb
  rw [hext, hsto] at hcx
  simp only [List.length_singleton] at hcx
  refine ⟨?_, ?_, hext, hsto, by decide, by decide⟩
  · rw [hcx]
    decide
  · rw [hb]
    rfl

/-- Claim C9: the report carries exactly one critical self-destruct
indicator per SELFDESTRUCT instruction (so k SELFDESTRUCTs give k
duplicates), while the high delegatecall indicator appears at most
once however many DELEGATECALLs occur. -/
theorem claim_C9_selfdestruct_indicators (instrs : List Instruction)
    (r : SecurityAnalysis) (h : analyze instrs = some r) :
    r.risk_indicators.countP isSelfdestructIndicator
      = instrs.countP (fun i => isSelfdestructOp i.opcode) ∧
    r.risk_indicators.countP isDelegatecallIndicator ≤ 1 := by
  obtain ⟨blocks, hb, _, _, _, _, _, _, _, _, hrisk⟩ := analyze_eq instrs r h
  rw [hrisk]
  constructor
  · rw [List.countP_append, List.countP_append, flatten_riskFor_count_sd]
    have h1 : List.countP isSelfdestructIndicator
        (if instrs.any (fun i => isDelegatecallOp i.opcode) then
          [("Delegatecall usage", "high",
            "Contract uses delegatecall - verify upgrade mechanism")]
         else []) = 0 := by
      split
      · rfl
      · rfl
    have h2 : List.countP isSelfdestructIndicator
        (if 5 < instrs.countP (fun i => isExternalCallOp i.opcode) then
          [("Multiple external calls", "medium",
            toString (instrs.countP fun i => isExternalCallOp i.opcode) ++
              " external calls - check for reentrancy")]
         else []) = 0 := by
      split
      · rfl
      · rfl
    rw [h1, h2]
    omega
  · rw [List.countP_append, List.countP_append, flatten_riskFor_count_dc]
    have h1 : List.countP isDelegatecallIndicator
        (if instrs.any (fun i => isDelegatecallOp i.opcode) then
          [("Delegatecall usage", "high",
            "Contract uses delegatecall - verify upgrade mechanism")]
         else []) ≤ 1 := by
      split
      · decide
      · decide
    have h2 : List.countP isDelegatecallIndicator
        (if 5 < instrs.countP (fun i => isExternalCallOp i.opcode) then
          [("Multiple external calls", "medium",
            toString (instrs.countP fun i => isExternalCallOp i.opcode) ++
              " external calls - check for reentrancy")]
         else []) = 0 := by
      split
      · rfl
      · rfl
    omega

/-- Witness for claim C9: on the disassembly of FF FF the report exists
and carries two duplicate critical self-destruct indicators. -/
theorem claim_C9_witness :
    (analyze (disassembleList [0xFF, 0xFF])).map
      (fun r => r.risk_indicators.countP isSelfdestructIndicator)
      = some 2 := by
  obtain ⟨r, hr⟩ : ∃ r, analyze (disassembleList [0xFF, 0xFF]) = some r :=
    ⟨_, rfl⟩
  obtain ⟨hsd, _⟩ := claim_C9_selfdestruct_indicators _ r hr
  rw [hr]
  simp only [Option.map_some']
  rw [hsd]
  decide

/-- Claim C10: over any disassembled instruction sequence the analyzer
reports, the dangerous-opcode findings are exactly one per CALL,
CALLCODE, STATICCALL, DELEGATECALL, SELFDESTRUCT, CREATE or CREATE2
instruction, carry those instructions' offsets in sequence order, and
those offsets are strictly increasing. -/
theorem claim_C10_findings_ordered (b : List Nat) (r : SecurityAnalysis)
    (h : analyze (disassembleList b) = some r) :
    r.dangerous_opcodes.map findingOffset
      = ((disassembleList b).filter
          fun i => isFindingOp i.opcode).map Instruction.offset ∧
    (r.dangerous_opcodes.map findingOffset).Pairwise (· < ·) := by
  obtain ⟨blocks, hb, _, hdang, _⟩ := analyze_eq _ r h
  have h1 : r.dangerous_opcodes.map findingOffset
      = ((disassembleList b).filter
          fun i => isFindingOp i.opcode).map Instruction.offset := by
    rw [hdang, flatten_findingFor_offsets]
  refine ⟨h1, ?_⟩
  rw [h1]
  have hsorted := disasmGo_offsets_sorted b.length 0 b le_rfl
  have hsub : List.Sublist
      ((disassembleList b).filter fun i => isFindingOp i.opcode)
      (disassembleList b) := List.filter_sublist _
  exact hsorted.sublist (hsub.map Instruction.offset)

/-- Witness for claim C10: on input F1 00 FF the report exists and its
findings carry the offsets 0 and 2, in increasing order. -/
theorem claim_C10_witness :
    (analyze (disassembleList [0xF1, 0x00, 0xFF])).map
      (fun r => r.dangerous_opcodes.map findingOffset) = some [0, 2] := by
  obtain ⟨r, hr⟩ : ∃ r, analyze (disassembleList [0xF1, 0x00, 0xFF]) = some r :=
    ⟨_, rfl⟩
  obtain ⟨h1, _⟩ := claim_C10_findings_ordered [0xF1, 0x00, 0xFF] r hr
  rw [hr]
  simp only [Option.map_some']
  rw [h1]
  decide
